import Mathlib

/-!
Verification of the AegisCloud (SkyShield) frontend monitoring controller.

The subject is the client-side controller in src/frontend/app.js and the
detection-page controller (src/unnamed/part_001): the detection job click
handler, the alert reconciler inside refreshAlerts, the result filter
pipeline applyFilters, and the timeline aggregation inside updateCharts.
JavaScript builtins used by that code (toLowerCase, trim, includes,
parseInt, JSON serialization of NaN) are modelled explicitly; DOM state is
modelled as the lists of entries the code maintains.
-/

namespace AegisCloud

/-! ## Models of the JavaScript string builtins used by the controller -/

/-- Model of String.prototype.toLowerCase restricted to the characters the
app handles (per-character lowercasing). -/
def toLowerJs (s : String) : String := String.mk (s.data.map Char.toLower)

/-- Model of String.prototype.includes: sub occurs contiguously in s; the
empty string occurs in every string. -/
def strContainsSub (s sub : String) : Bool :=
  (List.range (s.data.length + 1)).any (fun i => sub.data.isPrefixOf (s.data.drop i))

/-- Whitespace characters stripped by String.prototype.trim. -/
def isWsJs (c : Char) : Bool :=
  c = ' ' || c = '\t' || c = '\n' || c = '\r' || c = '\x0b' || c = '\x0c'

/-- Model of String.prototype.trim: strip whitespace from both ends. -/
def trimJs (s : String) : String :=
  String.mk (((s.data.dropWhile isWsJs).reverse.dropWhile isWsJs).reverse)

/-- Numeric value of a list of decimal digit characters. -/
def digitsVal (l : List Char) : Nat :=
  l.foldl (fun acc c => acc * 10 + (c.toNat - 48)) 0

/-- Model of parseInt(s) in base 10 followed by JSON serialization, which
turns NaN into null: skip leading whitespace, read an optional sign and a
maximal run of decimal digits; none when no digit is found (parseInt gives
NaN and JSON.stringify serializes NaN as null). -/
def parseIntJs (s : String) : Option Int :=
  let l := s.data.dropWhile isWsJs
  let signAndRest : Int × List Char :=
    match l with
    | '-' :: r => (-1, r)
    | '+' :: r => (1, r)
    | r => (1, r)
  let ds := signAndRest.2.takeWhile (fun c => c.isDigit)
  if ds.isEmpty then none else some (signAndRest.1 * (digitsVal ds : Int))

/-! ## Result Filter Pipeline (applyFilters, detection page controller)

A detection result row. The filter pipeline reads only threat_label and
source_ip; source_ip is Option String because a record may lack the field
(the code reads r.source_ip with a fallback r.source_ip or the empty
string, which maps undefined, null and the empty string all to the empty
string). -/

structure DetRec where
  source_ip : Option String
  threat_label : String
deriving DecidableEq, Repr

/-- The fallback expression r.source_ip or the empty string: undefined and
null (here none) and the empty string itself all yield the empty string. -/
def sourceIpOrEmpty (r : DetRec) : String := r.source_ip.getD ""

/-- applyFilters from the detection page controller: start from the full
result set; when the threat filter is not the string all, keep exact
matches on threat_label; when the trimmed lowercased IP filter is
non-empty, keep rows whose (possibly missing) source IP, lowercased,
contains it as a substring. -/
def applyFilters (allDetectionResults : List DetRec) (threatFilter ipValue : String) :
    List DetRec :=
  let filtered := allDetectionResults
  let filtered :=
    if threatFilter ≠ "all" then
      filtered.filter (fun r => r.threat_label == threatFilter)
    else filtered
  let ipFilter := toLowerJs (trimJs ipValue)
  let filtered :=
    if ipFilter ≠ "" then
      filtered.filter (fun r => strContainsSub (toLowerJs (sourceIpOrEmpty r)) ipFilter)
    else filtered
  filtered

/-- The match count the pipeline writes to the results counter element. -/
def resultsCount (allDetectionResults : List DetRec) (threatFilter ipValue : String) : Nat :=
  (applyFilters allDetectionResults threatFilter ipValue).length

/-- Reason code rendered when the filtered view is empty: the code shows
the message No logs to analyze when the full result set is empty and No
results match your filters otherwise. -/
inductive EmptyReason where
  | nothingToAnalyze
  | filtersExclude
deriving DecidableEq, Repr

/-- The guidance message choice of applyFilters when the filtered view is
empty (none when the view is non-empty and the table is rendered). -/
def emptyMessage (allDetectionResults : List DetRec) (threatFilter ipValue : String) :
    Option EmptyReason :=
  if (applyFilters allDetectionResults threatFilter ipValue).length = 0 then
    some (if allDetectionResults.length = 0 then EmptyReason.nothingToAnalyze
          else EmptyReason.filtersExclude)
  else none

/-- Spec-side label predicate: the filter value all matches everything,
otherwise the label must match exactly. -/
def labelMatches (threatFilter : String) (r : DetRec) : Bool :=
  threatFilter == "all" || r.threat_label == threatFilter

/-- Spec-side IP predicate: the trimmed, lowercased filter matches when it
is empty or is a substring of the lowercased source IP. -/
def ipMatches (ipValue : String) (r : DetRec) : Bool :=
  let ipFilter := toLowerJs (trimJs ipValue)
  ipFilter == "" || strContainsSub (toLowerJs (sourceIpOrEmpty r)) ipFilter

/-! ## Alert Reconciler (refreshAlerts in app.js)

An alert as the reconciler and aggregator consume it. timestamp is the
epoch-milliseconds value produced by the Date constructor on the ISO
timestamp string (date parsing is a browser builtin). -/

structure Alert where
  log_id : String
  threat_label : String
  timestamp : Int
deriving DecidableEq, Repr

/-- One child of the alertsList element: either the noAlerts placeholder
item (present after a clear, merely hidden while alerts exist) or a
rendered alert row. -/
inductive FeedEntry where
  | placeholder
  | row (a : Alert)
deriving DecidableEq, Repr

/-- The log id carried by a feed entry, none for the placeholder. -/
def entryId (e : FeedEntry) : Option String :=
  match e with
  | FeedEntry.placeholder => none
  | FeedEntry.row a => some a.log_id

/-- The log ids of the rendered rows, head of the list = newest (top of the
feed). -/
def feedIds (l : List FeedEntry) : List String := l.filterMap entryId

/-- Reconciler state: knownAlertIds (the SeenIdSet) and the children of the
alertsList element, head = first child. -/
structure RState where
  known : List String
  feed : List FeedEntry
deriving DecidableEq, Repr

/-- One pass of the eviction loop bounded by a fuel counter: while the
list has more than 51 children, remove the last child. Each iteration
shortens the list by one, so any fuel of at least the initial length runs
the while loop to completion. -/
def evictLoopFuel : Nat → List FeedEntry → List FeedEntry
  | 0, l => l
  | fuel + 1, l => if l.length > 51 then evictLoopFuel fuel l.dropLast else l

/-- The eviction loop of refreshAlerts: while the alertsList element has
more than 51 children, remove the last child. -/
def evictLoop (l : List FeedEntry) : List FeedEntry :=
  evictLoopFuel l.length l

/-- One iteration of the forEach body in refreshAlerts: skip an alert whose
log_id is already known, otherwise record the id, prepend a row, and run
the eviction loop. -/
def admitOne (s : RState) (a : Alert) : RState :=
  if s.known.contains a.log_id then s
  else { known := a.log_id :: s.known,
         feed := evictLoop (FeedEntry.row a :: s.feed) }

/-- The forEach over the polled alerts, also collecting the alerts that
were newly admitted on this call. -/
def runReconcile (s : RState) (alerts : List Alert) : RState × List Alert :=
  match alerts with
  | [] => (s, [])
  | a :: rest =>
    if s.known.contains a.log_id then runReconcile s rest
    else
      let step := runReconcile (admitOne s a) rest
      (step.1, a :: step.2)

/-- State after one reconciliation pass over the polled alert list. -/
def reconcile (s : RState) (alerts : List Alert) : RState :=
  (runReconcile s alerts).1

/-- The alerts newly admitted by one reconciliation pass. -/
def newAdmitted (s : RState) (alerts : List Alert) : List Alert :=
  (runReconcile s alerts).2

/-- State after the clear-alerts handler: knownAlertIds cleared and the
list reset to the single noAlerts placeholder item. -/
def clearedState : RState :=
  { known := [], feed := [FeedEntry.placeholder] }

/-- Reconciler invariant: every rendered row id is known, and no id is
rendered twice. Holds for the cleared state and is preserved by
reconciliation. -/
def FeedInv (s : RState) : Prop :=
  (∀ id ∈ feedIds s.feed, s.known.contains id = true) ∧ (feedIds s.feed).Nodup

/-! ## Job Controller (detection button click handler, detection page) -/

/-- A backend request issued by the click handler, in issue order. -/
inductive JobRequest where
  | logsCount
  | detect (limit : Option Int)
  | detectCancel
deriving DecidableEq, Repr

/-- The response body of POST /detect. analyzed_events is optional because
the code reads response.analyzed_events with a fallback to the empty
list. -/
structure DetectResponse where
  analyzed_events : Option (List DetRec)
  analyzed_count : Nat
  total_logs : Nat
  cancelled : Bool
deriving DecidableEq, Repr

/-- Environment of one click: outcomes of the awaited browser and network
interactions. An error value models a network failure or a non-2xx status
(the api helper throws on both). promptResp is none when the prompt is
dismissed; cancelAck records whether the cancellation request succeeds
(its failure is only logged to the console). -/
structure ClickEnv where
  logsCountResp : Except String Nat
  promptResp : Option String
  detectResp : Except String DetectResponse
  cancelAck : Except String Unit
deriving Repr

/-- A message shown to the user via alert(). -/
inductive UserMsg where
  | stoppedMsg (analyzed total : Nat)
  | analyzedMsg (analyzed : Nat)
  | detectFailed (e : String)
deriving DecidableEq, Repr

/-- Controller state: the detectionInProgress flag (the JobState: false =
Idle, true = Running) and the stored result set. -/
structure JobState where
  detectionInProgress : Bool
  allDetectionResults : List DetRec
deriving DecidableEq, Repr

/-- Observable outcome of one click: final state, backend requests issued
in order, alert() popups shown, and console errors logged. -/
structure ClickResult where
  state : JobState
  requests : List JobRequest
  msgs : List UserMsg
  consoleErrors : List String
deriving Repr

/-- The limit sent in the detect request body. The code sets limit to null,
then only when the stored-log count exceeds 10000 prompts the user; a
truthy (non-null, non-empty) entry is passed through parseInt, and
JSON.stringify turns a NaN result back into null. -/
def limitSent (count : Nat) (promptResp : Option String) : Option Int :=
  if count > 10000 then
    match promptResp with
    | none => none
    | some u => if u = "" then none else parseIntJs u
  else none

/-- The detection button click handler of the detection page controller.
When detectionInProgress it issues only a cancellation request (a failure
of which is logged, not alerted) and returns. Otherwise it sets the flag,
fetches the log count, optionally prompts for a limit, issues the detect
request, stores the results on success, alerts the outcome, and in a
finally block always resets the flag. -/
def handleDetectClick (s : JobState) (env : ClickEnv) : ClickResult :=
  if s.detectionInProgress then
    { state := s,
      requests := [JobRequest.detectCancel],
      msgs := [],
      consoleErrors := match env.cancelAck with
        | Except.ok _ => []
        | Except.error e => ["Cancel failed: " ++ e] }
  else
    match env.logsCountResp with
    | Except.error e =>
      { state := { s with detectionInProgress := false },
        requests := [JobRequest.logsCount],
        msgs := [UserMsg.detectFailed e],
        consoleErrors := [] }
    | Except.ok count =>
      let limit := limitSent count env.promptResp
      match env.detectResp with
      | Except.error e =>
        { state := { s with detectionInProgress := false },
          requests := [JobRequest.logsCount, JobRequest.detect limit],
          msgs := [UserMsg.detectFailed e],
          consoleErrors := [] }
      | Except.ok resp =>
        { state := { detectionInProgress := false,
                     allDetectionResults := resp.analyzed_events.getD [] },
          requests := [JobRequest.logsCount, JobRequest.detect limit],
          msgs := [if resp.cancelled
                   then UserMsg.stoppedMsg resp.analyzed_count resp.total_logs
                   else UserMsg.analyzedMsg resp.analyzed_count],
          consoleErrors := [] }

/-! ## Series Aggregator (timeline part of updateCharts in app.js) -/

/-- Model of Math.ceil(a / b) on nonnegative integers. -/
def ceilDivJs (a b : Nat) : Nat := (a + b - 1) / b

/-- The bucket count chosen by updateCharts: Math.min(10,
Math.ceil(alerts.length / 5)). -/
def bucketCountJs (n : Nat) : Nat := min 10 (ceilDivJs n 5)

/-- Model of the stable ascending sort by timestamp performed by the
Array.prototype.sort call with the Date-difference comparator (JS sort is
stable; insertion sort by a total preorder is the same stable sort). -/
def sortByTime (alerts : List Alert) : List Alert :=
  List.insertionSort (fun a b => a.timestamp ≤ b.timestamp) alerts

/-- The chart data arrays the loop in updateCharts fills: labels, attack
counts and suspicious counts, in parallel. -/
structure TimelineData where
  timeLabels : List String
  attackData : List Nat
  suspData : List Nat
deriving DecidableEq, Repr

/-- The slice taken on iteration i of the bucket loop:
sortedAlerts.slice(i * bucketSize, (i + 1) * bucketSize). -/
def chunkAt (sorted : List Alert) (bucketSize i : Nat) : List Alert :=
  (sorted.drop (i * bucketSize)).take bucketSize

/-- One iteration of the bucket loop: an empty slice is skipped
(continue), otherwise the label of the first slice member and the Attack
and Suspicious tallies of the slice are pushed onto the three arrays. fmt
models the toLocaleTimeString hour-minute formatting builtin. -/
def updateTimelineStep (fmt : Int → String) (sorted : List Alert) (bucketSize : Nat)
    (acc : TimelineData) (i : Nat) : TimelineData :=
  match chunkAt sorted bucketSize i with
  | [] => acc
  | a :: _ =>
    { timeLabels := acc.timeLabels ++ [fmt a.timestamp],
      attackData := acc.attackData ++
        [((chunkAt sorted bucketSize i).filter (fun x => x.threat_label == "Attack")).length],
      suspData := acc.suspData ++
        [((chunkAt sorted bucketSize i).filter (fun x => x.threat_label == "Suspicious")).length] }

/-- The timeline part of updateCharts: only when the alert list is
non-empty are the three chart arrays recomputed (sort, choose bucketCount
and bucketSize, loop over the buckets); with no alerts the previously
rendered timeline is left untouched. -/
def updateTimeline (fmt : Int → String) (prev : TimelineData) (alerts : List Alert) :
    TimelineData :=
  if alerts.length > 0 then
    let sorted := sortByTime alerts
    let bucketCount := bucketCountJs alerts.length
    let bucketSize := ceilDivJs sorted.length bucketCount
    (List.range bucketCount).foldl (updateTimelineStep fmt sorted bucketSize)
      { timeLabels := [], attackData := [], suspData := [] }
  else prev

/-- A timeline bucket as the spec describes it: a label and the two
tallies. -/
structure TimeBucket where
  label : String
  attackCount : Nat
  suspiciousCount : Nat
deriving DecidableEq, Repr

/-- The contiguous chunks of size bucketSize, one per index below
count. -/
def chunksOf (l : List Alert) (size count : Nat) : List (List Alert) :=
  (List.range count).map (fun i => (l.drop (i * size)).take size)

/-- The bucket emitted for a chunk: label from the first member, counts
are the Attack and Suspicious tallies. -/
def mkBucket (fmt : Int → String) (c : List Alert) : TimeBucket :=
  { label := match c with
             | [] => ""
             | a :: _ => fmt a.timestamp,
    attackCount := c.countP (fun x => x.threat_label == "Attack"),
    suspiciousCount := c.countP (fun x => x.threat_label == "Suspicious") }

/-- The timeline as the spec words it: sort ascending by timestamp, choose
bucketCount = min(10, ceil(n/5)) (n = 0 gives an empty timeline),
partition into bucketCount contiguous chunks of size ceil(n/bucketCount),
skip chunks empty due to rounding, emit label and tallies per chunk. -/
def timelineSpec (fmt : Int → String) (alerts : List Alert) : List TimeBucket :=
  let n := alerts.length
  if n = 0 then []
  else
    let sorted := sortByTime alerts
    let bc := min 10 (ceilDivJs n 5)
    let bs := ceilDivJs n bc
    ((chunksOf sorted bs bc).filter (fun c => !c.isEmpty)).map (mkBucket fmt)

/-- The bucket emitted on loop iteration i, none when the slice is empty
and the iteration is skipped. Bridges the loop of updateCharts and the
chunk description of the spec. -/
def gBucket (fmt : Int → String) (sorted : List Alert) (bucketSize i : Nat) :
    Option TimeBucket :=
  match chunkAt sorted bucketSize i with
  | [] => none
  | _ :: _ => some (mkBucket fmt (chunkAt sorted bucketSize i))

/-! ## Concrete sample inputs used by the closed instance theorems -/

/-- A detection result row with a source IP. -/
def sampleAttack : DetRec := { source_ip := some "192.168.0.1", threat_label := "Attack" }

/-- A detection result row lacking the source IP field. -/
def sampleNoIp : DetRec := { source_ip := none, threat_label := "Suspicious" }

/-- Fifty-one alerts with distinct log ids. -/
def testAlerts51 : List Alert :=
  (List.range 51).map
    (fun i => { log_id := toString i, threat_label := "Attack", timestamp := 0 })

/-- A single concrete alert. -/
def sampleAlertA1 : Alert := { log_id := "a1", threat_label := "Attack", timestamp := 0 }

/-- A small polled alert list containing a duplicated log id. -/
def sampleFeedAlerts : List Alert :=
  [ sampleAlertA1, sampleAlertA1,
    { log_id := "a2", threat_label := "Normal", timestamp := 1 } ]

/-- A reconciler state that has already seen the id a1 whose row has been
evicted from the feed. -/
def preSeeded : RState := { known := ["a1"], feed := [FeedEntry.placeholder] }

/-- Controller state with no run in flight. -/
def idleState : JobState := { detectionInProgress := false, allDetectionResults := [] }

/-- Controller state with a run in flight. -/
def runningState : JobState := { detectionInProgress := true, allDetectionResults := [] }

/-- A successful detect response analyzing all 20000 stored logs. -/
def respAll : DetectResponse :=
  { analyzed_events := some [], analyzed_count := 20000, total_logs := 20000,
    cancelled := false }

/-- Click environment: 20000 stored logs, the user answers the limit prompt
with the non-numeric string abc, and the detect request succeeds. -/
def envAbc : ClickEnv :=
  { logsCountResp := Except.ok 20000, promptResp := some "abc",
    detectResp := Except.ok respAll, cancelAck := Except.ok () }

/-- A concrete timestamp formatter standing in for toLocaleTimeString. -/
def fmtId : Int → String := fun t => toString t

/-- A previously rendered non-empty timeline. -/
def prevSample : TimelineData :=
  { timeLabels := ["09:15"], attackData := [3], suspData := [1] }

/-- Seven alerts with mixed labels and decreasing timestamps. -/
def sampleSeven : List Alert :=
  (List.range 7).map
    (fun i => { log_id := toString i,
                threat_label := if i % 2 = 0 then "Attack" else "Suspicious",
                timestamp := (7 - (i : Int)) })

/-! ## Helper lemmas on the string builtins -/

theorem strContainsSub_empty_left (sub : String) :
    strContainsSub "" sub = true ↔ sub = "" := by
  obtain ⟨l⟩ := sub
  cases l with
  | nil => simp only [show strContainsSub "" { data := [] } = true from by decide, true_iff]
  | cons c cs =>
    simp only [show strContainsSub "" { data := c :: cs } = false from rfl]
    simp [String.ext_iff]

theorem toLowerJs_eq_empty_iff (s : String) : toLowerJs s = "" ↔ s = "" := by
  obtain ⟨l⟩ := s
  cases l <;> simp [toLowerJs, String.ext_iff]

theorem ipMatches_of_no_ip (ip : String) (r : DetRec) (h : sourceIpOrEmpty r = "") :
    ipMatches ip r = true ↔ trimJs ip = "" := by
  simp only [ipMatches, h, show toLowerJs "" = "" from by decide, Bool.or_eq_true,
    beq_iff_eq, strContainsSub_empty_left, or_self]
  exact toLowerJs_eq_empty_iff _

/-! ## Result Filter Pipeline theorems -/

theorem applyFilters_eq_filter (R : List DetRec) (tf ip : String) :
    applyFilters R tf ip = R.filter (fun r => labelMatches tf r && ipMatches ip r) := by
  unfold applyFilters labelMatches ipMatches
  by_cases h1 : tf = "all" <;> by_cases h2 : toLowerJs (trimJs ip) = ""
  · simp [h1, h2]
  · simp [h1, h2, show (toLowerJs (trimJs ip) == "") = false from beq_eq_false_iff_ne.mpr h2]
  · simp [h1, h2, show (tf == "all") = false from beq_eq_false_iff_ne.mpr h1]
  · simp [h1, h2, List.filter_filter, Bool.and_comm,
      show (tf == "all") = false from beq_eq_false_iff_ne.mpr h1,
      show (toLowerJs (trimJs ip) == "") = false from beq_eq_false_iff_ne.mpr h2]

/-- Claim C5 (confirmed): for every result set and filter pair, the filter
pipeline returns exactly the order-preserving subsequence of rows
satisfying the label predicate and the IP-substring predicate
conjunctively, and the reported match count is the length of that
subsequence. The label value all matches everything, otherwise the label
must match exactly; the trimmed, lowercased IP filter matches as a
substring of the lowercased source IP, the empty filter matching
everything. -/
theorem claim_C5 (R : List DetRec) (tf ip : String) :
    applyFilters R tf ip = R.filter (fun r => labelMatches tf r && ipMatches ip r) ∧
    resultsCount R tf ip = (R.filter (fun r => labelMatches tf r && ipMatches ip r)).length := by
  refine ⟨applyFilters_eq_filter R tf ip, ?_⟩
  unfold resultsCount
  rw [applyFilters_eq_filter]

/-- Claim C8 (confirmed): whenever the filtered view is empty, the
rendered guidance message distinguishes an empty result set (nothing to
analyze) from a non-empty result set fully excluded by the active filters
(no results match your filters). -/
theorem claim_C8 (R : List DetRec) (tf ip : String)
    (h : applyFilters R tf ip = []) :
    (emptyMessage R tf ip = some EmptyReason.nothingToAnalyze ↔ R = []) ∧
    (emptyMessage R tf ip = some EmptyReason.filtersExclude ↔ R ≠ []) := by
  unfold emptyMessage
  rw [h]
  cases R <;> simp

/-- Closed instance of claim C8 at a concrete excluding filter. -/
theorem claim_C8_witness :
    (emptyMessage [sampleAttack] "Normal" "" = some EmptyReason.nothingToAnalyze ↔
      [sampleAttack] = ([] : List DetRec)) ∧
    (emptyMessage [sampleAttack] "Normal" "" = some EmptyReason.filtersExclude ↔
      [sampleAttack] ≠ ([] : List DetRec)) :=
  claim_C8 [sampleAttack] "Normal" "" (by decide)

/-- Claim C10 (confirmed): a row whose source IP is missing, null or empty
is treated as having the empty IP: it passes the filter exactly when the
label predicate passes and the trimmed IP filter is empty, so any
non-empty IP filter excludes it while a label-only filter admits it. -/
theorem claim_C10 (R : List DetRec) (tf ip : String) (r : DetRec)
    (h : sourceIpOrEmpty r = "") :
    r ∈ applyFilters R tf ip ↔ (r ∈ R ∧ labelMatches tf r = true ∧ trimJs ip = "") := by
  rw [applyFilters_eq_filter, List.mem_filter]
  simp only [Bool.and_eq_true, ipMatches_of_no_ip ip r h, and_assoc]

/-- Closed instance of claim C10: the row without a source IP is excluded
by the IP filter 1 but would be admitted by the label-only filter. -/
theorem claim_C10_witness :
    sourceIpOrEmpty sampleNoIp = "" ∧
    (sampleNoIp ∈ applyFilters [sampleNoIp, sampleAttack] "all" "1" ↔
      (sampleNoIp ∈ [sampleNoIp, sampleAttack] ∧ labelMatches "all" sampleNoIp = true ∧
        trimJs "1" = "")) :=
  ⟨by decide, claim_C10 [sampleNoIp, sampleAttack] "all" "1" sampleNoIp (by decide)⟩

/-! ## Alert Reconciler lemmas -/

theorem contains_iff (l : List String) (x : String) : l.contains x = true ↔ x ∈ l := by
  simp

theorem evictLoopFuel_sublist (fuel : Nat) (l : List FeedEntry) :
    (evictLoopFuel fuel l).Sublist l := by
  induction fuel generalizing l with
  | zero => exact List.Sublist.refl l
  | succ n ih =>
    unfold evictLoopFuel
    split
    · exact (ih l.dropLast).trans (List.dropLast_sublist l)
    · exact List.Sublist.refl l

theorem evictLoop_sublist (l : List FeedEntry) : (evictLoop l).Sublist l :=
  evictLoopFuel_sublist l.length l

theorem feedIds_evictLoop_sublist (l : List FeedEntry) :
    (feedIds (evictLoop l)).Sublist (feedIds l) :=
  List.Sublist.filterMap entryId (evictLoop_sublist l)

theorem admitOne_known_mono (s : RState) (a : Alert) (id : String)
    (h : s.known.contains id = true) : (admitOne s a).known.contains id = true := by
  unfold admitOne
  split
  · exact h
  · rw [contains_iff] at h ⊢
    exact List.mem_cons_of_mem _ h

theorem admitOne_contains_self (s : RState) (a : Alert) :
    (admitOne s a).known.contains a.log_id = true := by
  unfold admitOne
  split
  · assumption
  · rw [contains_iff]
    exact List.mem_cons_self _ _

theorem runReconcile_cons_mem (s : RState) (a : Alert) (rest : List Alert)
    (h : s.known.contains a.log_id = true) :
    runReconcile s (a :: rest) = runReconcile s rest := by
  conv_lhs => rw [runReconcile]
  rw [if_pos h]

theorem runReconcile_cons_new (s : RState) (a : Alert) (rest : List Alert)
    (h : s.known.contains a.log_id = false) :
    runReconcile s (a :: rest) =
      ((runReconcile (admitOne s a) rest).1, a :: (runReconcile (admitOne s a) rest).2) := by
  conv_lhs => rw [runReconcile]
  rw [if_neg (by rw [h]; decide)]

theorem runReconcile_known_mono (s : RState) (L : List Alert) (id : String)
    (h : s.known.contains id = true) :
    (runReconcile s L).1.known.contains id = true := by
  induction L generalizing s with
  | nil => exact h
  | cons a rest ih =>
    cases hc : s.known.contains a.log_id with
    | true =>
      rw [runReconcile_cons_mem s a rest hc]
      exact ih s h
    | false =>
      rw [runReconcile_cons_new s a rest hc]
      exact ih (admitOne s a) (admitOne_known_mono s a id h)

theorem runReconcile_mem_known (s : RState) (L : List Alert) (a : Alert) (ha : a ∈ L) :
    (runReconcile s L).1.known.contains a.log_id = true := by
  induction L generalizing s with
  | nil => cases ha
  | cons b rest ih =>
    rcases List.mem_cons.mp ha with h | h
    · subst h
      cases hc : s.known.contains a.log_id with
      | true =>
        rw [runReconcile_cons_mem s a rest hc]
        exact runReconcile_known_mono s rest _ hc
      | false =>
        rw [runReconcile_cons_new s a rest hc]
        exact runReconcile_known_mono (admitOne s a) rest _
          (admitOne_contains_self s a)
    · cases hc : s.known.contains b.log_id with
      | true =>
        rw [runReconcile_cons_mem s b rest hc]
        exact ih s h
      | false =>
        rw [runReconcile_cons_new s b rest hc]
        exact ih (admitOne s b) h

theorem runReconcile_all_known (s : RState) (L : List Alert)
    (h : ∀ a ∈ L, s.known.contains a.log_id = true) :
    runReconcile s L = (s, []) := by
  induction L with
  | nil => rfl
  | cons a rest ih =>
    rw [runReconcile_cons_mem s a rest (h a (List.mem_cons_self a rest))]
    exact ih (fun b hb => h b (List.mem_cons_of_mem a hb))

theorem admitOne_inv (s : RState) (a : Alert) (h : FeedInv s) : FeedInv (admitOne s a) := by
  obtain ⟨hsub, hnd⟩ := h
  unfold admitOne
  cases hc : s.known.contains a.log_id with
  | true => rw [if_pos rfl]; exact ⟨hsub, hnd⟩
  | false =>
    rw [if_neg (by decide)]
    have hids : feedIds (FeedEntry.row a :: s.feed) = a.log_id :: feedIds s.feed := rfl
    constructor
    · intro id hid
      have hmem : id ∈ feedIds (FeedEntry.row a :: s.feed) :=
        (feedIds_evictLoop_sublist _).subset hid
      rw [hids] at hmem
      rw [contains_iff]
      rcases List.mem_cons.mp hmem with h1 | h1
      · exact h1 ▸ List.mem_cons_self _ _
      · exact List.mem_cons_of_mem _ ((contains_iff _ _).mp (hsub id h1))
    · apply List.Nodup.sublist (feedIds_evictLoop_sublist _)
      rw [hids]
      refine List.nodup_cons.mpr ⟨?_, hnd⟩
      intro hmem
      exact absurd (hsub a.log_id hmem) (by rw [hc]; decide)

theorem runReconcile_inv (s : RState) (L : List Alert) (h : FeedInv s) :
    FeedInv (runReconcile s L).1 := by
  induction L generalizing s with
  | nil => exact h
  | cons a rest ih =>
    cases hc : s.known.contains a.log_id with
    | true =>
      rw [runReconcile_cons_mem s a rest hc]
      exact ih s h
    | false =>
      rw [runReconcile_cons_new s a rest hc]
      exact ih (admitOne s a) (admitOne_inv s a h)

theorem filter_entryId_length (l : List FeedEntry) (id : String) :
    (l.filter (fun e => entryId e == some id)).length = (feedIds l).count id := by
  induction l with
  | nil => rfl
  | cons e rest ih =>
    cases e with
    | placeholder =>
      have h1 : feedIds (FeedEntry.placeholder :: rest) = feedIds rest := rfl
      rw [h1, List.filter_cons,
        if_neg (show ¬((entryId FeedEntry.placeholder == some id) = true) from
          fun hx => nomatch hx)]
      exact ih
    | row a =>
      have h2 : feedIds (FeedEntry.row a :: rest) = a.log_id :: feedIds rest := rfl
      rw [h2, List.filter_cons, List.count_cons, ← ih]
      by_cases hb : a.log_id = id
      · rw [if_pos (show (entryId (FeedEntry.row a) == some id) = true from by
            simp [entryId, hb]),
          if_pos (show (a.log_id == id) = true from by simp [hb])]
        simp
      · rw [if_neg (show ¬((entryId (FeedEntry.row a) == some id) = true) from by
            simp [entryId, hb]),
          if_neg (show ¬((a.log_id == id) = true) from by simp [hb])]
        simp

theorem not_readmitted (s : RState) (L : List Alert) (a : Alert)
    (h : s.known.contains a.log_id = true) : a ∉ newAdmitted s L := by
  induction L generalizing s with
  | nil => simp [newAdmitted, runReconcile]
  | cons b rest ih =>
    cases hc : s.known.contains b.log_id with
    | true =>
      unfold newAdmitted
      rw [runReconcile_cons_mem s b rest hc]
      exact ih s h
    | false =>
      unfold newAdmitted
      rw [runReconcile_cons_new s b rest hc]
      intro hmem
      rcases List.mem_cons.mp hmem with h1 | h1
      · subst h1
        exact absurd h (by rw [hc]; decide)
      · exact ih (admitOne s b) (admitOne_known_mono s b a.log_id h) h1

/-! ## Alert Reconciler claims -/

/-- Claim C3 (confirmed): reconciliation is idempotent per alert. Starting
from any state satisfying the reconciler invariant, a second pass over the
same polled list changes nothing and admits no alert, and the feed holds
at most one entry per log id. -/
theorem claim_C3 (s : RState) (L : List Alert) (hInv : FeedInv s) :
    reconcile (reconcile s L) L = reconcile s L ∧
    newAdmitted (reconcile s L) L = [] ∧
    ∀ id : String,
      ((reconcile s L).feed.filter (fun e => entryId e == some id)).length ≤ 1 := by
  have hall : ∀ a ∈ L, (reconcile s L).known.contains a.log_id = true :=
    fun a ha => runReconcile_mem_known s L a ha
  have heq := runReconcile_all_known (reconcile s L) L hall
  refine ⟨?_, ?_, ?_⟩
  · show (runReconcile (reconcile s L) L).1 = reconcile s L
    rw [heq]
  · show (runReconcile (reconcile s L) L).2 = []
    rw [heq]
  · intro id
    have hinv2 : FeedInv (reconcile s L) := runReconcile_inv s L hInv
    rw [filter_entryId_length]
    exact List.nodup_iff_count_le_one.mp hinv2.2 id

/-- Closed instance of claim C3 on the cleared state and a polled list
with a duplicated id. -/
theorem claim_C3_witness :
    FeedInv clearedState ∧
    reconcile (reconcile clearedState sampleFeedAlerts) sampleFeedAlerts =
      reconcile clearedState sampleFeedAlerts ∧
    newAdmitted (reconcile clearedState sampleFeedAlerts) sampleFeedAlerts = [] ∧
    ((reconcile clearedState sampleFeedAlerts).feed.filter
      (fun e => entryId e == some "a1")).length ≤ 1 :=
  ⟨by unfold FeedInv; decide,
   (claim_C3 clearedState sampleFeedAlerts (by unfold FeedInv; decide)).1,
   (claim_C3 clearedState sampleFeedAlerts (by unfold FeedInv; decide)).2.1,
   (claim_C3 clearedState sampleFeedAlerts (by unfold FeedInv; decide)).2.2 "a1"⟩

/-- Claim C9 (confirmed): reconciliation never removes an id from the seen
set, and an alert whose id is already seen is never re-admitted by a later
reconcile call, even when its row has been evicted from the feed and the
alert still appears in the polled list. -/
theorem claim_C9 (s : RState) (L : List Alert) :
    (∀ id : String, s.known.contains id = true →
      (reconcile s L).known.contains id = true) ∧
    (∀ a ∈ L, s.known.contains a.log_id = true → a ∉ newAdmitted s L) := by
  exact ⟨fun id h => runReconcile_known_mono s L id h,
         fun a _ h => not_readmitted s L a h⟩

/-- Closed instance of claim C9: the id a1 was seen and its row evicted;
after another poll returning a1 the id is still seen and the alert is not
re-admitted. -/
theorem claim_C9_witness :
    preSeeded.known.contains "a1" = true ∧
    (reconcile preSeeded sampleFeedAlerts).known.contains "a1" = true ∧
    sampleAlertA1 ∉ newAdmitted preSeeded sampleFeedAlerts :=
  ⟨by decide,
   (claim_C9 preSeeded sampleFeedAlerts).1 "a1" (by decide),
   (claim_C9 preSeeded sampleFeedAlerts).2 sampleAlertA1 (by decide) (by decide)⟩

set_option maxRecDepth 10000 in
/-- Claim C4 (code bug): reconciling 51 distinct alerts into the cleared
feed leaves 51 rendered alert entries, not at most 50. The eviction loop
runs while the list has more than 51 children, and its first eviction
removes the hidden noAlerts placeholder, after which 51 alert rows remain,
contradicting the adjacent comment Keep max 50 items in DOM. -/
theorem claim_C4 :
    (reconcile clearedState testAlerts51).feed.length = 51 ∧
    (feedIds (reconcile clearedState testAlerts51).feed).length = 51 :=
  ⟨by decide, by decide⟩

/-! ## Job Controller theorems -/

/-- Claim C1 counterexample: clicking the detection button while a run is
in flight is not a no-op; it issues a network request (the cancellation
request). -/
theorem claim_C1_counterexample :
    (handleDetectClick runningState envAbc).requests ≠ [] := by decide

/-- Claim C1 (corrected): while a run is in flight a click issues no new
detection request and leaves the controller state unchanged, so at most
one detection run is in flight; but instead of a pure no-op the click
issues a single cancellation request. -/
theorem claim_C1 (s : JobState) (env : ClickEnv) (h : s.detectionInProgress = true) :
    (handleDetectClick s env).requests = [JobRequest.detectCancel] ∧
    (handleDetectClick s env).state = s ∧
    ∀ l : Option Int, JobRequest.detect l ∉ (handleDetectClick s env).requests := by
  unfold handleDetectClick
  rw [if_pos h]
  exact ⟨rfl, rfl, fun l => by simp⟩

/-- Closed instance of claim C1 while running. -/
theorem claim_C1_witness :
    (handleDetectClick runningState envAbc).requests = [JobRequest.detectCancel] ∧
    (handleDetectClick runningState envAbc).state = runningState ∧
    JobRequest.detect none ∉ (handleDetectClick runningState envAbc).requests :=
  ⟨(claim_C1 runningState envAbc rfl).1, (claim_C1 runningState envAbc rfl).2.1,
   (claim_C1 runningState envAbc rfl).2.2 none⟩

/-- Claim C2 (confirmed): every detection run started from the idle state
ends with the in-progress flag reset, whatever the outcome of the log
count request, the prompt, and the detect request, because the reset sits
in a finally block. -/
theorem claim_C2 (s : JobState) (env : ClickEnv) (h : s.detectionInProgress = false) :
    (handleDetectClick s env).state.detectionInProgress = false := by
  obtain ⟨lc, pr, dr, ca⟩ := env
  unfold handleDetectClick
  rw [if_neg (by rw [h]; decide)]
  cases lc with
  | error e => rfl
  | ok count => cases dr <;> rfl

/-- Closed instance of claim C2 for a completed run. -/
theorem claim_C2_witness :
    (handleDetectClick idleState envAbc).state.detectionInProgress = false :=
  claim_C2 idleState envAbc rfl

/-- Claim C7 (code bug): with 20000 stored logs and the non-numeric limit
entry abc, the detect request is issued with a null limit, exactly as if
no limit had been requested, and the only message shown reports success;
no input error is surfaced (parseInt yields NaN, which JSON serialization
turns into null). -/
theorem claim_C7 :
    (handleDetectClick idleState envAbc).requests =
      [JobRequest.logsCount, JobRequest.detect none] ∧
    (handleDetectClick idleState envAbc).msgs = [UserMsg.analyzedMsg 20000] :=
  ⟨by decide, by decide⟩

/-! ## Series Aggregator lemmas -/

theorem foldl_step_eq (fmt : Int → String) (sorted : List Alert) (bs : Nat)
    (l : List Nat) (acc : TimelineData) :
    l.foldl (updateTimelineStep fmt sorted bs) acc =
      { timeLabels := acc.timeLabels ++
          ((l.filterMap (gBucket fmt sorted bs)).map TimeBucket.label),
        attackData := acc.attackData ++
          ((l.filterMap (gBucket fmt sorted bs)).map TimeBucket.attackCount),
        suspData := acc.suspData ++
          ((l.filterMap (gBucket fmt sorted bs)).map TimeBucket.suspiciousCount) } := by
  induction l generalizing acc with
  | nil => simp
  | cons i rest ih =>
    rw [List.foldl_cons, ih, List.filterMap_cons]
    cases hc : chunkAt sorted bs i with
    | nil =>
      have hstep : updateTimelineStep fmt sorted bs acc i = acc := by
        unfold updateTimelineStep
        rw [hc]
      have hg : gBucket fmt sorted bs i = none := by
        unfold gBucket
        rw [hc]
      rw [hstep, hg]
    | cons a tail =>
      have hstep : updateTimelineStep fmt sorted bs acc i =
          { timeLabels := acc.timeLabels ++ [fmt a.timestamp],
            attackData := acc.attackData ++
              [((a :: tail).filter (fun x => x.threat_label == "Attack")).length],
            suspData := acc.suspData ++
              [((a :: tail).filter (fun x => x.threat_label == "Suspicious")).length] } := by
        unfold updateTimelineStep
        rw [hc]
      have hg : gBucket fmt sorted bs i = some (mkBucket fmt (a :: tail)) := by
        unfold gBucket
        rw [hc]
      rw [hstep, hg]
      simp [mkBucket, List.countP_eq_length_filter]

theorem chunksFilterMap (fmt : Int → String) (sorted : List Alert) (bs : Nat)
    (l : List Nat) :
    ((l.map (fun i => (sorted.drop (i * bs)).take bs)).filter
        (fun c => !c.isEmpty)).map (mkBucket fmt)
      = l.filterMap (gBucket fmt sorted bs) := by
  induction l with
  | nil => rfl
  | cons i rest ih =>
    simp only [List.map_cons, List.filter_cons, List.filterMap_cons]
    cases hc : (sorted.drop (i * bs)).take bs with
    | nil =>
      have hg : gBucket fmt sorted bs i = none := by
        unfold gBucket chunkAt
        rw [hc]
      rw [hg]
      simpa using ih
    | cons a tail =>
      have hg : gBucket fmt sorted bs i = some (mkBucket fmt (a :: tail)) := by
        unfold gBucket chunkAt
        rw [hc]
      rw [hg]
      simpa using ih

/-! ## Series Aggregator claims -/

/-- Claim C6 counterexample: updating the timeline with zero alerts does
not yield an empty timeline; the previously rendered buckets persist
because the whole update is skipped. -/
theorem claim_C6_counterexample :
    updateTimeline fmtId prevSample [] = prevSample ∧
    prevSample.timeLabels ≠ [] :=
  ⟨by decide, by decide⟩

/-- Claim C6 (corrected): for a non-empty alert list the rendered timeline
is exactly the spec description (sort ascending by timestamp, bucketCount
= min(10, ceil(n/5)), contiguous chunks of size ceil(n/bucketCount),
chunks empty by rounding skipped, label from the first chunk member,
Attack and Suspicious tallies per chunk), and seven alerts give
bucketCount 2; with zero alerts, however, the update is skipped and the
previous timeline persists rather than becoming empty. -/
theorem claim_C6 (fmt : Int → String) (prev : TimelineData) (alerts : List Alert)
    (h : alerts ≠ []) :
    updateTimeline fmt prev alerts =
      { timeLabels := (timelineSpec fmt alerts).map TimeBucket.label,
        attackData := (timelineSpec fmt alerts).map TimeBucket.attackCount,
        suspData := (timelineSpec fmt alerts).map TimeBucket.suspiciousCount } ∧
    (alerts.length = 7 → bucketCountJs alerts.length = 2) := by
  refine ⟨?_, fun h7 => by rw [h7]; decide⟩
  have hne : alerts.length ≠ 0 := by
    simpa [List.length_eq_zero] using h
  have hpos : alerts.length > 0 := Nat.pos_of_ne_zero hne
  simp only [updateTimeline, timelineSpec, chunksOf, bucketCountJs, if_pos hpos, if_neg hne]
  rw [show (sortByTime alerts).length = alerts.length from List.length_insertionSort _ _]
  rw [foldl_step_eq, chunksFilterMap]
  simp

/-- Closed instance of claim C6 on seven alerts. -/
theorem claim_C6_witness :
    sampleSeven ≠ [] ∧
    updateTimeline fmtId prevSample sampleSeven =
      { timeLabels := (timelineSpec fmtId sampleSeven).map TimeBucket.label,
        attackData := (timelineSpec fmtId sampleSeven).map TimeBucket.attackCount,
        suspData := (timelineSpec fmtId sampleSeven).map TimeBucket.suspiciousCount } ∧
    (sampleSeven.length = 7 → bucketCountJs sampleSeven.length = 2) :=
  ⟨by decide, (claim_C6 fmtId prevSample sampleSeven (by decide)).1,
   (claim_C6 fmtId prevSample sampleSeven (by decide)).2⟩

end AegisCloud
